import Mathlib

/-!
Verification of the schema-driven form server (`server.py`).

The development shallowly embeds the Python source into Lean:

* JSON values become the inductive type `Json` (objects are insertion-ordered
  association lists, mirroring Python 3.7+ `dict` semantics).
* Recursive Python functions whose recursion is not structurally bounded
  (`resolve_schema_refs`) are embedded with an explicit fuel parameter; the
  result `PRes.diverge` means the Python call would still be running after
  `fuel` nested calls, so `∀ fuel, ... = .diverge` states nontermination.
* Raised Python exceptions become `Except.error` / `PRes.exn` carrying the
  exception class name (`"TypeError"`, `"ValueError"`, `"AttributeError"`,
  `"KeyError"`, `"re.error"`); `except ValueError` clauses are modelled by
  matching on that name.
* Library calls are modelled on explicit fragments on which the model agrees
  with CPython: `int()` / `float()` accept an optionally signed decimal
  string with surrounding blanks (the predicate `numStrOk` names the
  agreement fragment: no underscores, infinities, NaN, exponent letters,
  non-ASCII digits, or rounding-sensitive overlong decimals); `re.match` is
  modelled by a regular-expression matcher over a pattern AST together with
  a pattern-string reader covering literals, the escapes `\d` `\w` `\s`
  and escaped punctuation, character classes with ranges and negation, `.`,
  `*`, `+`, `?` and `|` — every construct outside this fragment (groups,
  anchors, braces, other escapes, degenerate classes) makes the reader
  return `none` rather than guess a meaning, so a readable pattern means one
  whose AST semantics coincides with CPython's (match semantics: success iff
  some prefix of the subject, starting at position 0, is in the pattern
  language — exactly `re.match`, not `re.fullmatch`).
-/

/-- A JSON value. Objects keep their key insertion order, like Python dicts. -/
inductive Json where
  | null
  | bool (b : Bool)
  | num (n : Int)
  | str (s : String)
  | arr (xs : List Json)
  | obj (ps : List (String × Json))

/-- Result of running an embedded Python computation under a fuel bound:
`diverge` = the computation has not finished within the fuel (models
unbounded recursion), `exn` = a raised exception, `ok` = normal return. -/
inductive PRes (α : Type) where
  | diverge
  | exn (e : String)
  | ok (a : α)

/-- Python `d[k]` / `k in d` lookup on an insertion-ordered dict. -/
def pyLookup (k : String) : List (String × Json) → Option Json
  | [] => none
  | (k2, v) :: rest => if k2 = k then some v else pyLookup k rest

/-- Python `d[k] = v` on an insertion-ordered dict: updates in place if the key
exists (keeping its position), otherwise appends. -/
def dictSet : List (String × Json) → String → Json → List (String × Json)
  | [], k, v => [(k, v)]
  | (k2, v2) :: rest, k, v =>
    if k2 = k then (k2, v) :: rest else (k2, v2) :: dictSet rest k v

/-- Python truthiness of a JSON value (`if resolved:` etc.). -/
def pyTruthy : Json → Bool
  | .null => false
  | .bool b => b
  | .num n => n ≠ 0
  | .str s => s ≠ ""
  | .arr xs => !xs.isEmpty
  | .obj ps => !ps.isEmpty

mutual
/-- Structural size of a JSON value (every node counts 1). Used to bound the
fuel needed by the reference resolver on reference-free documents. -/
def jsize : Json → Nat
  | .null => 1 | .bool _ => 1 | .num _ => 1 | .str _ => 1
  | .arr xs => 1 + jsizeL xs
  | .obj ps => 1 + jsizeO ps
def jsizeL : List Json → Nat
  | [] => 0
  | x :: xs => jsize x + jsizeL xs
def jsizeO : List (String × Json) → Nat
  | [] => 0
  | kv :: rest => jsize kv.2 + jsizeO rest
end

mutual
/-- No node of the value carries a `$ref` key (reference-free document). -/
def noRefs : Json → Bool
  | .null => true | .bool _ => true | .num _ => true | .str _ => true
  | .arr xs => noRefsL xs
  | .obj ps => (pyLookup "$ref" ps).isNone && noRefsO ps
def noRefsL : List Json → Bool
  | [] => true
  | x :: xs => noRefs x && noRefsL xs
def noRefsO : List (String × Json) → Bool
  | [] => true
  | kv :: rest => noRefs kv.2 && noRefsO rest
end

/-- Split a character list at every occurrence of `c` (Python `s.split(c)`;
also Lean `String.splitOn`, re-implemented structurally). -/
def splitOnCharAux (c : Char) : List Char → List Char → List (List Char)
  | acc, [] => [acc.reverse]
  | acc, x :: xs =>
    if x = c then acc.reverse :: splitOnCharAux c [] xs
    else splitOnCharAux c (x :: acc) xs

/-- Python `s.split(c)` for a single-character separator. -/
def splitOnChar (c : Char) (s : String) : List String :=
  (splitOnCharAux c [] s.data).map String.mk

/-- Python `c in s` for a string and a character. -/
def strHasChar (c : Char) (s : String) : Bool := s.data.any (· = c)

/-! ### `resolve_ref` (server.py lines 19-36) -/

/-- The segment-lookup loop of `resolve_ref`: walk the split pointer segments,
each step requiring the current value to be a dict containing the key. -/
def resolveRefGo : List String → Json → Option Json
  | [], current => some current
  | part :: rest, .obj ps =>
    match pyLookup part ps with
    | some v => resolveRefGo rest v
    | none => none
  | _ :: _, _ => none

/-- `resolve_ref(ref_path, schema)`: resolves an internal `#/...` pointer by
splitting on `/` and walking nested dicts; `none` models the Python `None`
returned (with a printed warning) when the pointer is external or a segment
lookup fails. -/
def resolve_ref (refPath : String) (schema : Json) : Option Json :=
  match refPath.data with
  | '#' :: '/' :: rest => resolveRefGo ((splitOnCharAux '/' [] rest).map String.mk) schema
  | _ => none

/-! ### `resolve_schema_refs` (server.py lines 38-58) -/

/-- Resolve every value of an object in order, propagating divergence and
exceptions, rebuilding a fresh object (the `result[key] = ...` loop). -/
def mapPResObj (g : Json → PRes Json) : List (String × Json) → PRes (List (String × Json))
  | [] => .ok []
  | (k, v) :: rest =>
    match g v with
    | .diverge => .diverge
    | .exn e => .exn e
    | .ok v2 =>
      match mapPResObj g rest with
      | .diverge => .diverge
      | .exn e => .exn e
      | .ok r => .ok ((k, v2) :: r)

/-- Resolve every element of a list in order (the list-comprehension branch). -/
def mapPResList (g : Json → PRes Json) : List Json → PRes (List Json)
  | [] => .ok []
  | v :: rest =>
    match g v with
    | .diverge => .diverge
    | .exn e => .exn e
    | .ok v2 =>
      match mapPResList g rest with
      | .diverge => .diverge
      | .exn e => .exn e
      | .ok r => .ok (v2 :: r)

/-- `resolve_schema_refs(schema_part, full_schema)` with an explicit recursion
budget `fuel` (the Python source recurses with no cycle detection; `.diverge`
means the budget was exhausted). A dict carrying `$ref` is replaced by the
recursively-resolved referent when the referent is truthy, and kept unchanged
when the pointer fails to resolve or the referent is falsy; a non-string
`$ref` value would make `ref_path.startswith` raise `AttributeError`. -/
def resolve_schema_refs : Nat → Json → Json → PRes Json
  | 0, _, _ => .diverge
  | f + 1, .obj ps, schema =>
    match pyLookup "$ref" ps with
    | some (.str p) =>
      match resolve_ref p schema with
      | some r =>
        if pyTruthy r then resolve_schema_refs f r schema
        else .ok (.obj ps)
      | none => .ok (.obj ps)
    | some _ => .exn "AttributeError"
    | none =>
      match mapPResObj (fun v => resolve_schema_refs f v schema) ps with
      | .diverge => .diverge
      | .exn e => .exn e
      | .ok r => .ok (.obj r)
  | f + 1, .arr xs, schema =>
    match mapPResList (fun v => resolve_schema_refs f v schema) xs with
    | .diverge => .diverge
    | .exn e => .exn e
    | .ok r => .ok (.arr r)
  | _ + 1, x, _ => .ok x

/-! ### `load_schema` (server.py lines 7-17) -/

/-- Outcome of opening and JSON-decoding `schema.json`, the only I/O
`load_schema` performs. -/
inductive FileOutcome where
  | missing
  | badJson (msg : String)
  | loaded (j : Json)

/-- `load_schema()`: returns the decoded document on success and, after
printing an error, the empty dict `{}` when the file is absent or its JSON is
malformed — the process then continues and serves requests with that empty
schema. -/
def load_schema : FileOutcome → Json
  | .missing => .obj []
  | .badJson _ => .obj []
  | .loaded j => j

/-! ### `parse_nested_form_data` (server.py lines 546-569) -/

/-- The descend-and-set loop for one dotted key: `k` is the next segment,
`rest` the remaining segments (the last segment is the leaf key). Descending
creates missing dicts; meeting a non-dict value raises `TypeError`
(`current[part]` on a string/list, or item assignment on one). -/
def setPath : List (String × Json) → String → List String → Json → Except String (List (String × Json))
  | ps, k, [], v => .ok (dictSet ps k v)
  | ps, k, k2 :: rest, v =>
    match pyLookup k ps with
    | some (.obj child) =>
      match setPath child k2 rest v with
      | .ok child2 => .ok (dictSet ps k (.obj child2))
      | .error e => .error e
    | some _ => .error "TypeError"
    | none =>
      match setPath [] k2 rest v with
      | .ok child2 => .ok (dictSet ps k (.obj child2))
      | .error e => .error e

/-- The key-processing loop of `parse_nested_form_data`, threading the
top-level dict being built (the branch for an empty split result is
unreachable: a split always returns at least one segment). -/
def assembleGo : List (String × String) → List (String × Json) → Except String (List (String × Json))
  | [], acc => .ok acc
  | (k, v) :: rest, acc =>
    if strHasChar '.' k then
      match splitOnChar '.' k with
      | [] => assembleGo rest acc
      | p0 :: parts =>
        match setPath acc p0 parts (.str v) with
        | .ok acc2 => assembleGo rest acc2
        | .error e => .error e
    else assembleGo rest (dictSet acc k (.str v))

/-- `parse_nested_form_data(flat_data)`: dotted keys are split on `.` and
descended into (creating nested dicts), undotted keys are set at top level;
the input list carries the dict's insertion order. -/
def parse_nested_form_data (flat : List (String × String)) : Except String Json :=
  match assembleGo flat [] with
  | .ok ps => .ok (.obj ps)
  | .error e => .error e

/-- Path lookup in a nested JSON tree (specification-side observer used to
state what assembly builds). -/
def getPath : Json → List String → Option Json
  | t, [] => some t
  | .obj ps, k :: rest =>
    match pyLookup k ps with
    | some v => getPath v rest
    | none => none
  | _, _ :: _ => none

/-- The dotted-path of a submitted key (`key.split('.')`). -/
def pathOf (k : String) : List String := splitOnChar '.' k

/-! ### A model of the `re` module fragment the program uses

`re.match(pattern, s)` is truthy iff some prefix of `s` (starting at position
0) belongs to the pattern's language. The pattern string is read into a small
AST covering the constructs exercised here: literal characters, escapes
(`\d`, `\w`, `\s`, and escaped punctuation), `.`, character classes with
ranges and negation, `*`, `+`, `?` and top-level alternation `|`. Patterns
outside this fragment are not given a meaning (the reader returns `none`). -/

/-- One entry of a character class: a single character or a range. -/
inductive ClsItem where
  | single (c : Char)
  | range (lo hi : Char)

/-- Regular-expression AST. -/
inductive Regex where
  | emp
  | eps
  | chr (c : Char)
  | anyChr
  | cls (neg : Bool) (items : List ClsItem)
  | alt (a b : Regex)
  | cat (a b : Regex)
  | star (a : Regex)

def isAsciiLetter (c : Char) : Bool := ('a' ≤ c && c ≤ 'z') || ('A' ≤ c && c ≤ 'Z')

def isAsciiDigit (c : Char) : Bool := '0' ≤ c && c ≤ '9'

def clsItemMatch (c : Char) : ClsItem → Bool
  | .single c2 => c = c2
  | .range lo hi => lo ≤ c && c ≤ hi

def clsMatch (neg : Bool) (items : List ClsItem) (c : Char) : Bool :=
  let m := items.any (clsItemMatch c)
  if neg then !m else m

/-- Does the expression accept the empty word? -/
def nullable : Regex → Bool
  | .emp => false
  | .eps => true
  | .chr _ => false
  | .anyChr => false
  | .cls _ _ => false
  | .alt a b => nullable a || nullable b
  | .cat a b => nullable a && nullable b
  | .star _ => true

/-- Brzozowski derivative of an expression by one character. -/
def derivR : Regex → Char → Regex
  | .emp, _ => .emp
  | .eps, _ => .emp
  | .chr c2, c => if c = c2 then .eps else .emp
  | .anyChr, c => if c = '\n' then .emp else .eps
  | .cls neg items, c => if clsMatch neg items c then .eps else .emp
  | .alt a b, c => .alt (derivR a c) (derivR b c)
  | .cat a b, c =>
    if nullable a then .alt (.cat (derivR a c) b) (derivR b c)
    else .cat (derivR a c) b
  | .star a, c => .cat (derivR a c) (.star a)

/-- `re.match` semantics over the AST: some prefix of the word, starting at
position 0, is accepted (no end anchoring). -/
def matchHere : Regex → List Char → Bool
  | r, [] => nullable r
  | r, c :: cs => nullable r || matchHere (derivR r c) cs

/-- Class items denoted by an escape: `\d`, `\w`, `\s` are the supported
character-class escapes, and an escaped punctuation character stands for
itself, as in `re`. Any other escaped ASCII letter or digit (`\S`, `\D`,
`\W`, `\b`, `\B`, `\C`, backreferences, ...) is OUTSIDE the fragment and
rejected (`none`), so no construct that CPython treats differently — or
rejects with `re.error` — is silently given literal meaning. -/
def escItems : Char → Option (List ClsItem)
  | 'd' => some [.range '0' '9']
  | 'w' => some [.range 'a' 'z', .range 'A' 'Z', .range '0' '9', .single '_']
  | 's' => some [.single ' ', .single '\t', .single '\n', .single '\r', .single '\x0b', .single '\x0c']
  | c => if isAsciiLetter c || isAsciiDigit c then none else some [.single c]

/-- Read the items of a character class after the opening `[` (and after the
optional `^`), up to the closing `]`. Outside-fragment forms are rejected
(`none`) rather than misread: reversed ranges like `[z-a]`, ranges with an
escape or backslash endpoint, and an escape item directly followed by a range
dash (as in `[\d-z]`) — all `re.error` in CPython. A trailing dash (`[a-]`,
`[\d-]`) and dash-started ranges (`[--z]`) keep their `re` meaning. -/
def readClsItems : List Char → Option (List ClsItem × List Char)
  | [] => none
  | ']' :: rest => some ([], rest)
  | '\\' :: e :: '-' :: ']' :: rest =>
    match escItems e with
    | some items => some (items ++ [.single '-'], rest)
    | none => none
  | '\\' :: _ :: '-' :: _ => none
  | '\\' :: e :: rest =>
    match escItems e with
    | some items =>
      match readClsItems rest with
      | some (more, r) => some (items ++ more, r)
      | none => none
    | none => none
  | c :: '-' :: ']' :: rest => some ([.single c, .single '-'], rest)
  | c :: '-' :: c2 :: rest =>
    if c2 = '\\' then none
    else if c ≤ c2 then
      match readClsItems rest with
      | some (items, r) => some (.range c c2 :: items, r)
      | none => none
    else none
  | c :: rest =>
    match readClsItems rest with
    | some (items, r) => some (.single c :: items, r)
    | none => none

/-- Read one atom of the pattern. Groups, anchors, brace quantifiers
(`{m,n}`, which `re` would interpret, and bare braces, which `re` would take
literally), a class whose first character is `]` (literal in `re`), and
unsupported escapes are all rejected (`none`) rather than misread — the
reader accepts only patterns on which the AST semantics coincides with
CPython's. -/
def readAtom : List Char → Option (Regex × List Char)
  | [] => none
  | '(' :: _ => none
  | ')' :: _ => none
  | '|' :: _ => none
  | '*' :: _ => none
  | '+' :: _ => none
  | '?' :: _ => none
  | '^' :: _ => none
  | '$' :: _ => none
  | '{' :: _ => none
  | '}' :: _ => none
  | '[' :: '^' :: ']' :: _ => none
  | '[' :: '^' :: rest =>
    match readClsItems rest with
    | some (items, r) => some (.cls true items, r)
    | none => none
  | '[' :: ']' :: _ => none
  | '[' :: rest =>
    match readClsItems rest with
    | some (items, r) => some (.cls false items, r)
    | none => none
  | '.' :: rest => some (.anyChr, rest)
  | '\\' :: e :: rest =>
    match escItems e with
    | some items => some (.cls false items, rest)
    | none => none
  | '\\' :: [] => none
  | c :: rest => some (.chr c, rest)

/-- Apply a postfix repetition operator, if present. -/
def readPostfixOp (a : Regex) : List Char → Regex × List Char
  | '*' :: rest => (.star a, rest)
  | '+' :: rest => (.cat a (.star a), rest)
  | '?' :: rest => (.alt a .eps, rest)
  | rest => (a, rest)

/-- Read a concatenation of atoms, stopping at `|` or the end of the input. -/
def readSeq : Nat → List Char → Option (Regex × List Char)
  | 0, _ => none
  | _ + 1, [] => some (.eps, [])
  | _ + 1, '|' :: rest => some (.eps, '|' :: rest)
  | f + 1, cs =>
    match readAtom cs with
    | none => none
    | some (a, rest) =>
      let (a2, rest2) := readPostfixOp a rest
      match readSeq f rest2 with
      | some (b, rest3) => some (.cat a2 b, rest3)
      | none => none

/-- Read an alternation of concatenations. -/
def readAlt : Nat → List Char → Option (Regex × List Char)
  | 0, _ => none
  | f + 1, cs =>
    match readSeq (cs.length + 1) cs with
    | none => none
    | some (a, rest) =>
      match rest with
      | '|' :: rest2 =>
        match readAlt f rest2 with
        | some (b, rest3) => some (.alt a b, rest3)
        | none => none
      | _ => some (a, rest)

/-- Read a whole pattern string into the AST (entire input must be consumed). -/
def parseRegex (p : String) : Option Regex :=
  match readAlt (p.data.length + 1) p.data with
  | some (r, []) => some r
  | _ => none

/-- `re.match(pattern, string)` as used by the validator: both arguments must
be strings (`TypeError` otherwise), the pattern must be readable into the
modelled fragment, and the result is truthiness of the match object. -/
def re_match : Json → Json → Except String Bool
  | .str p, .str v =>
    match parseRegex p with
    | some r => .ok (matchHere r v.data)
    | none => .error "re.error"
  | .str _, _ => .error "TypeError"
  | _, _ => .error "TypeError"

/-! ### The fixed email expression

The literal pattern `^[a-zA-Z0-9._%+-]+@[a-zA-Z0-9.-]+\.[a-zA-Z]{2,}$` of
`validate_field_value` is anchored at both ends, so a string matches iff it
is `local @ domain . tld` with a non-empty local part over its class, a
non-empty domain part over its class (which itself may contain dots: the
separating dot is necessarily the last one, as the TLD class has no dot), and
a TLD of at least two ASCII letters. -/

def emailLocalChar (c : Char) : Bool :=
  isAsciiLetter c || isAsciiDigit c || c = '.' || c = '_' || c = '%' || c = '+' || c = '-'

def emailDomChar (c : Char) : Bool :=
  isAsciiLetter c || isAsciiDigit c || c = '.' || c = '-'

/-- Check `domain \. tld $` on the part after the `@`. -/
def emailRest (rest : List Char) : Bool :=
  match (splitOnCharAux '.' [] rest).reverse with
  | tld :: domParts =>
    decide (2 ≤ tld.length) && tld.all isAsciiLetter &&
    !domParts.isEmpty && decide (1 ≤ (domParts.map List.length).sum) &&
    domParts.all (·.all emailDomChar)
  | [] => false

/-- Membership in the language of the email pattern. -/
def emailMatches (s : String) : Bool :=
  match splitOnCharAux '@' [] s.data with
  | [localPart, rest] => !localPart.isEmpty && localPart.all emailLocalChar && emailRest rest
  | _ => false

/-! ### `int()` / `float()` over strings, and Python arithmetic helpers -/

def isPyBlank (c : Char) : Bool :=
  c = ' ' || c = '\t' || c = '\n' || c = '\r' || c = '\x0b' || c = '\x0c'

/-- Remove leading and trailing blanks (Python's numeric constructors strip). -/
def stripBlanks (l : List Char) : List Char :=
  ((l.dropWhile isPyBlank).reverse.dropWhile isPyBlank).reverse

def digitsToNat (l : List Char) : Nat :=
  l.foldl (fun a c => a * 10 + (c.toNat - 48)) 0

/-- Split an optional leading sign; `true` means negative. -/
def splitSign : List Char → Bool × List Char
  | '-' :: r => (true, r)
  | '+' :: r => (false, r)
  | r => (false, r)

/-- `int(s)` on a string: optionally signed run of ASCII decimal digits, with
surrounding blanks allowed; anything else raises `ValueError` (`none`).
CPython additionally accepts digit-group underscores (`"1_0"`) and non-ASCII
decimal digits, which this model rejects — `numStrOk` below carves out the
fragment on which model and CPython agree, and the numeric-validation claim
is stated on that fragment. -/
def pyIntOfString (s : String) : Option Int :=
  let (neg, ds) := splitSign (stripBlanks s.data)
  if !ds.isEmpty && ds.all isAsciiDigit then
    some (if neg then -(digitsToNat ds : Int) else (digitsToNat ds : Int))
  else none

def pow10 : Nat → Int
  | 0 => 1
  | n + 1 => 10 * pow10 n

/-- A parsed Python number represented exactly: the pair `(m, s)` denotes
`m / 10^s` (floats in the program only ever come from decimal literals). -/
def PyNum : Type := Int × Nat

/-- `float(s)` on a string: optional sign, integer digits, optional fraction,
optional decimal exponent, surrounding blanks; at least one digit must be
present in the mantissa. CPython additionally accepts `inf` / `nan` /
underscored numerals / non-ASCII digits, and rounds the value to the nearest
IEEE binary64, while this model keeps the exact decimal — `numStrOk` below
carves out the fragment on which the two give the same validation outcomes,
and the numeric-validation claim is stated on that fragment. -/
def pyFloatOfString (s : String) : Option PyNum :=
  let (neg, l1) := splitSign (stripBlanks s.data)
  let (ip, l2) := l1.span isAsciiDigit
  let (fp, l3) :=
    match l2 with
    | '.' :: r => r.span isAsciiDigit
    | _ => ([], l2)
  let hadDot := match l2 with | '.' :: _ => true | _ => false
  let l3' := if hadDot then l3 else l2
  if ip.isEmpty && fp.isEmpty then none
  else
    let m0 : Nat := digitsToNat (ip ++ fp)
    let s0 : Nat := fp.length
    match l3' with
    | [] => some (if neg then -(m0 : Int) else (m0 : Int), s0)
    | 'e' :: r =>
      match splitSign r with
      | (eneg, eds) =>
        if !eds.isEmpty && eds.all isAsciiDigit then
          let e := digitsToNat eds
          let mant : Int := if neg then -(m0 : Int) else (m0 : Int)
          some (if eneg then (mant, s0 + e) else (mant * pow10 e, s0))
        else none
    | 'E' :: r =>
      match splitSign r with
      | (eneg, eds) =>
        if !eds.isEmpty && eds.all isAsciiDigit then
          let e := digitsToNat eds
          let mant : Int := if neg then -(m0 : Int) else (m0 : Int)
          some (if eneg then (mant, s0 + e) else (mant * pow10 e, s0))
        else none
    | _ => none

/-- Numeric coercion of a field value (`int(value)` / `float(value)`): parse
failures on strings are `ValueError`; a dict, list or `None` argument is
`TypeError` (which the validator's `except ValueError` does NOT catch). -/
def coerceNum (isInt : Bool) : Json → Except String PyNum
  | .str s =>
    if isInt then
      match pyIntOfString s with
      | some n => .ok ((n, 0) : PyNum)
      | none => .error "ValueError"
    else
      match pyFloatOfString s with
      | some q => .ok q
      | none => .error "ValueError"
  | .num n => .ok ((n, 0) : PyNum)
  | .bool b => .ok ((if b then 1 else 0, 0) : PyNum)
  | _ => .error "TypeError"

/-- A schema bound used in a comparison: Python accepts numbers (and bools,
which are ints); comparing a number against anything else is `TypeError`. -/
def boundAsInt : Json → Except String Int
  | .num n => .ok n
  | .bool b => .ok (if b then 1 else 0)
  | _ => .error "TypeError"

/-- `num_value < bound` (exact rational comparison). -/
def numLtJ (q : PyNum) (b : Json) : Except String Bool :=
  match boundAsInt b with
  | .ok m => .ok (decide (q.1 < m * pow10 q.2))
  | .error e => .error e

/-- `num_value > bound` (exact rational comparison). -/
def numGtJ (q : PyNum) (b : Json) : Except String Bool :=
  match boundAsInt b with
  | .ok m => .ok (decide (q.1 > m * pow10 q.2))
  | .error e => .error e

/-- `len(value)`: defined for strings, lists and dicts; `TypeError` otherwise. -/
def pyLen : Json → Except String Nat
  | .str s => .ok s.data.length
  | .arr xs => .ok xs.length
  | .obj ps => .ok ps.length
  | _ => .error "TypeError"

/-- `len(value) < bound`. -/
def lenLtJ (n : Nat) (b : Json) : Except String Bool :=
  match boundAsInt b with
  | .ok m => .ok (decide ((n : Int) < m))
  | .error e => .error e

/-- `len(value) > bound`. -/
def lenGtJ (n : Nat) (b : Json) : Except String Bool :=
  match boundAsInt b with
  | .ok m => .ok (decide ((n : Int) > m))
  | .error e => .error e

def natDigitsAux : Nat → Nat → List Char
  | 0, _ => []
  | _ + 1, 0 => []
  | f + 1, n => natDigitsAux f (n / 10) ++ [Char.ofNat (48 + n % 10)]

/-- Decimal rendering of a natural number (structural, kernel-evaluable). -/
def pyNatRepr (n : Nat) : String :=
  if n = 0 then "0" else String.mk (natDigitsAux n n)

def pyIntRepr : Int → String
  | .ofNat m => pyNatRepr m
  | .negSucc m => "-" ++ pyNatRepr (m + 1)

/-- Interpolation of a value into an f-string (`str()`): modelled for the
scalars the claims exercise; the container repr is not modelled. -/
def pyFormatJ : Json → String
  | .str s => s
  | .num n => pyIntRepr n
  | .bool b => if b then "True" else "False"
  | .null => "None"
  | _ => ""

mutual
/-- Python `==` on JSON values as the program uses it (comparisons against
`''` and membership tests on scalar enums); dict comparison here is
order-sensitive, which the program never relies on. -/
def beqJ : Json → Json → Bool
  | .null, .null => true
  | .bool a, .bool b => a = b
  | .num a, .num b => a = b
  | .str a, .str b => a = b
  | .arr a, .arr b => beqJL a b
  | .obj a, .obj b => beqJO a b
  | _, _ => false
def beqJL : List Json → List Json → Bool
  | [], [] => true
  | x :: xs, y :: ys => beqJ x y && beqJL xs ys
  | _, _ => false
def beqJO : List (String × Json) → List (String × Json) → Bool
  | [], [] => true
  | x :: xs, y :: ys => (x.1 = y.1 : Bool) && beqJ x.2 y.2 && beqJO xs ys
  | _, _ => false
end

/-- Is `p` an infix of `l` (Python substring containment)? -/
def isInfixChar (p : List Char) : List Char → Bool
  | [] => p.isPrefixOf []
  | c :: rest => p.isPrefixOf (c :: rest) || isInfixChar p rest

/-- Python `v in container`: list membership by `==`, dict key membership
(non-string hashable scalars are simply absent among string keys; dict/list
keys are unhashable → `TypeError`), substring test on strings, `TypeError` on
scalars. -/
def pyContains (v container : Json) : Except String Bool :=
  match container with
  | .arr xs => .ok (xs.any (beqJ v))
  | .obj ps =>
    match v with
    | .str k => .ok (pyLookup k ps).isSome
    | .num _ => .ok false
    | .bool _ => .ok false
    | .null => .ok false
    | _ => .error "TypeError"
  | .str s =>
    match v with
    | .str sub => .ok (isInfixChar sub.data s.data)
    | _ => .error "TypeError"
  | _ => .error "TypeError"

/-- Python `container[key]` for the shapes reachable here: dict lookup
(`KeyError` when absent), list indexing by an int (with negative wrap);
string indexing by a non-int key is `TypeError` (character indexing is not
reached by the program). -/
def pyIndex (container key : Json) : Except String Json :=
  match container, key with
  | .obj ps, .str k =>
    match pyLookup k ps with
    | some v => .ok v
    | none => .error "KeyError"
  | .obj _, .num _ => .error "KeyError"
  | .obj _, .bool _ => .error "KeyError"
  | .obj _, .null => .error "KeyError"
  | .obj _, _ => .error "TypeError"
  | .arr xs, .num n =>
    let i : Int := if n < 0 then n + xs.length else n
    if h : 0 ≤ i ∧ i.toNat < xs.length then .ok (xs.get ⟨i.toNat, h.2⟩)
    else .error "IndexError"
  | .arr _, _ => .error "TypeError"
  | _, _ => .error "TypeError"

def intercalateComma : List String → String
  | [] => ""
  | [s] => s
  | s :: rest => s ++ ", " ++ intercalateComma rest

/-- All elements must be strings for `', '.join` (else `TypeError`). -/
def joinStrs : List Json → Except String (List String)
  | [] => .ok []
  | .str s :: rest =>
    match joinStrs rest with
    | .ok l => .ok (s :: l)
    | .error e => .error e
  | _ :: _ => .error "TypeError"

/-- `', '.join(e)`: joins an iterable of strings. -/
def pyJoinComma (e : Json) : Except String String :=
  match e with
  | .arr xs =>
    match joinStrs xs with
    | .ok l => .ok (intercalateComma l)
    | .error er => .error er
  | .obj ps => .ok (intercalateComma (ps.map (·.1)))
  | .str s => .ok (intercalateComma (s.data.map (fun c => String.mk [c])))
  | _ => .error "TypeError"

/-- Python iteration over a JSON value (`for x in v`): list elements, dict
keys, characters of a string; `TypeError` on scalars. -/
def pyIter : Json → Except String (List Json)
  | .arr xs => .ok xs
  | .obj ps => .ok (ps.map (fun kv => Json.str kv.1))
  | .str s => .ok (s.data.map (fun c => Json.str (String.mk [c])))
  | _ => .error "TypeError"

/-- `d.get(k, default)`: `AttributeError` when the receiver is not a dict. -/
def pyDictGet (j : Json) (k : String) (dflt : Json) : Except String Json :=
  match j with
  | .obj ps => .ok ((pyLookup k ps).getD dflt)
  | _ => .error "AttributeError"

/-! ### `validate_field_value` (server.py lines 437-473) -/

/-- The `minLength` block of `validate_field_value`. -/
def checkMinLength (fn : String) (value : Json) (fs : List (String × Json)) : Except String (List String) :=
  match pyLookup "minLength" fs with
  | none => Except.ok []
  | some b => do
    let n ← pyLen value
    let lt ← lenLtJ n b
    Except.ok (if lt then ["\x27" ++ fn ++ "\x27 must be at least " ++ pyFormatJ b ++ " characters"] else [])

/-- The `maxLength` block of `validate_field_value`. -/
def checkMaxLength (fn : String) (value : Json) (fs : List (String × Json)) : Except String (List String) :=
  match pyLookup "maxLength" fs with
  | none => Except.ok []
  | some b => do
    let n ← pyLen value
    let gt ← lenGtJ n b
    Except.ok (if gt then ["\x27" ++ fn ++ "\x27 must be at most " ++ pyFormatJ b ++ " characters"] else [])

/-- The `pattern` block of `validate_field_value`. -/
def checkPattern (fn : String) (value : Json) (fs : List (String × Json)) : Except String (List String) :=
  match pyLookup "pattern" fs with
  | none => Except.ok []
  | some p => do
    let m ← re_match p value
    Except.ok (if m then [] else ["\x27" ++ fn ++ "\x27 does not match required pattern"])

/-- The `enum` block of `validate_field_value`. -/
def checkEnum (fn : String) (value : Json) (fs : List (String × Json)) : Except String (List String) :=
  match pyLookup "enum" fs with
  | none => Except.ok []
  | some ej => do
    let mem ← pyContains value ej
    if mem then Except.ok []
    else do
      let joined ← pyJoinComma ej
      Except.ok ["\x27" ++ fn ++ "\x27 must be one of: " ++ joined]

/-- The `format == 'email'` block of `validate_field_value`. -/
def checkEmail (fn : String) (value : Json) (fs : List (String × Json)) : Except String (List String) :=
  if beqJ ((pyLookup "format" fs).getD .null) (.str "email") then
    match value with
    | .str v => Except.ok (if emailMatches v then [] else ["\x27" ++ fn ++ "\x27 must be a valid email"])
    | _ => Except.error "TypeError"
  else Except.ok []

/-- The `minimum` block of the numeric branch. -/
def checkMinimum (fn : String) (q : PyNum) (fs : List (String × Json)) : Except String (List String) :=
  match pyLookup "minimum" fs with
  | none => Except.ok []
  | some b => do
    let lt ← numLtJ q b
    Except.ok (if lt then ["\x27" ++ fn ++ "\x27 must be at least " ++ pyFormatJ b] else [])

/-- The `maximum` block of the numeric branch. -/
def checkMaximum (fn : String) (q : PyNum) (fs : List (String × Json)) : Except String (List String) :=
  match pyLookup "maximum" fs with
  | none => Except.ok []
  | some b => do
    let gt ← numGtJ q b
    Except.ok (if gt then ["\x27" ++ fn ++ "\x27 must be at most " ++ pyFormatJ b] else [])

/-- `validate_field_value(field_name, value, field_schema)`: the per-field
rule dispatch, assembled from the sequential check blocks of the source.
Returns the accumulated message list, or the exception that escapes (only
`ValueError` from numeric coercion is caught by the source). -/
def validate_field_value (fn : String) (value : Json) (fschema : Json) : Except String (List String) :=
  match fschema with
  | .obj fs =>
    let ftype := (pyLookup "type" fs).getD (.str "string")
    if beqJ ftype (.str "string") then do
      let e1 ← checkMinLength fn value fs
      let e2 ← checkMaxLength fn value fs
      let e3 ← checkPattern fn value fs
      let e4 ← checkEnum fn value fs
      let e5 ← checkEmail fn value fs
      Except.ok (e1 ++ e2 ++ e3 ++ e4 ++ e5)
    else if beqJ ftype (.str "integer") || beqJ ftype (.str "number") then
      let isInt := beqJ ftype (.str "integer")
      match coerceNum isInt value with
      | .error e =>
        if e = "ValueError" then
          .ok ["\x27" ++ fn ++ "\x27 must be a valid " ++ (if isInt then "integer" else "number")]
        else .error e
      | .ok q => do
        let b1 ← checkMinimum fn q fs
        let b2 ← checkMaximum fn q fs
        Except.ok (b1 ++ b2)
    else .ok []
  | _ => .error "AttributeError"

/-! ### `validate_against_schema` (server.py lines 410-435) -/

/-- One iteration of the required-field loop: `field not in data` or
`data[field] == ''` yields the required message. -/
def requiredCheckOne (data f : Json) : Except String (List String) := do
  let inD ← pyContains f data
  if !inD then Except.ok ["Field \x27" ++ pyFormatJ f ++ "\x27 is required"]
  else do
    let v ← pyIndex data f
    Except.ok (if beqJ v (.str "") then ["Field \x27" ++ pyFormatJ f ++ "\x27 is required"] else [])

def requiredGo (data : Json) : List Json → Except String (List String)
  | [] => .ok []
  | f :: rest => do
    let e ← requiredCheckOne data f
    let es ← requiredGo data rest
    Except.ok (e ++ es)

/-- The required-field pass of `validate_against_schema` (lines 421-424):
for each name in the schema's `required`, emit the required message when the
key is absent from the data or its value is the empty string. -/
def requiredPass (required data : Json) : Except String (List String) := do
  let items ← pyIter required
  requiredGo data items

/-- The per-field pass of `validate_against_schema` (lines 427-433): each
data item whose key names a declared property and whose value is truthy gets
its property schema re-resolved and `validate_field_value` applied; messages
accumulate across fields. -/
def fieldPass (fuel : Nat) (properties resolved : Json) : List (String × Json) → PRes (List String)
  | [] => .ok []
  | (k, v) :: rest =>
    match pyContains (.str k) properties with
    | .error e => .exn e
    | .ok b =>
      if b && pyTruthy v then
        match pyIndex properties (.str k) with
        | .error e => .exn e
        | .ok fs0 =>
          match resolve_schema_refs fuel fs0 resolved with
          | .diverge => .diverge
          | .exn e => .exn e
          | .ok fs =>
            match validate_field_value k v fs with
            | .error e => .exn e
            | .ok errs =>
              match fieldPass fuel properties resolved rest with
              | .diverge => .diverge
              | .exn e => .exn e
              | .ok more => .ok (errs ++ more)
      else fieldPass fuel properties resolved rest

/-- `validate_against_schema(data, schema)`: resolves the schema, runs the
required-field pass then the per-field pass, and returns all accumulated
messages; `fuel` bounds the resolver's recursion depth as in
`resolve_schema_refs`. -/
def validate_against_schema (fuel : Nat) (data schema : Json) : PRes (List String) :=
  match resolve_schema_refs fuel schema schema with
  | .diverge => .diverge
  | .exn e => .exn e
  | .ok resolved =>
    match pyDictGet resolved "properties" (.obj []) with
    | .error e => .exn e
    | .ok properties =>
      match pyDictGet resolved "required" (.arr []) with
      | .error e => .exn e
      | .ok required =>
        match requiredPass required data with
        | .error e => .exn e
        | .ok reqErrs =>
          match data with
          | .obj d =>
            match fieldPass fuel properties resolved d with
            | .diverge => .diverge
            | .exn e => .exn e
            | .ok fldErrs => .ok (reqErrs ++ fldErrs)
          | _ => .exn "AttributeError"

/-! ### Specification-side observers and well-formedness predicates -/

/-- An optional numeric bound entry is well-typed for comparisons (absent, a
number, or a bool — Python bools are ints). -/
def wfBound (fs : List (String × Json)) (k : String) : Bool :=
  match pyLookup k fs with
  | none => true
  | some (.num _) => true
  | some (.bool _) => true
  | some _ => false

/-- A property schema is well-formed for throw-free validation of a string
value: a dict whose string-branch constraints are well-typed (readable
pattern, enum a list of strings, numeric length bounds) resp. whose numeric
bounds are numbers. -/
def wfFieldSchema : Json → Bool
  | .obj fs =>
    let ftype := (pyLookup "type" fs).getD (.str "string")
    if beqJ ftype (.str "string") then
      wfBound fs "minLength" && wfBound fs "maxLength" &&
      (match pyLookup "pattern" fs with
       | none => true
       | some (.str p) => (parseRegex p).isSome
       | some _ => false) &&
      (match pyLookup "enum" fs with
       | none => true
       | some (.arr xs) => xs.all (fun x => match x with | .str _ => true | _ => false)
       | some _ => false)
    else if beqJ ftype (.str "integer") || beqJ ftype (.str "number") then
      wfBound fs "minimum" && wfBound fs "maximum"
    else true
  | _ => false

/-- Neither path is a (possibly improper) initial segment of the other. -/
def noPrefixPair (p q : List String) : Bool :=
  !(p.isPrefixOf q) && !(q.isPrefixOf p)

/-- The submitted keys collide at no segment: pairwise, no key's dotted path
is an initial segment of another's (this also rules out duplicate keys). -/
def prefixFreeB : List (List String) → Bool
  | [] => true
  | p :: rest => rest.all (noPrefixPair p) && prefixFreeB rest

/-- The required-violation condition of the claimed specification: the key is
absent from the data dict or holds the empty string. -/
def reqViol (d : List (String × Json)) (f : String) : Bool :=
  match pyLookup f d with
  | none => true
  | some v => beqJ v (.str "")

/-- A node holding only a `$ref` pointer. -/
def refNode (p : String) : Json := .obj [("$ref", .str p)]

/-- The two-node cyclic document: `a` refs `#/b` and `b` refs `#/a`. -/
def cycSchema : Json := .obj [("a", refNode "#/b"), ("b", refNode "#/a")]

/-- The descend loop of `setPath` meets only dicts (or absent keys) along the
way, so the set cannot raise: the success condition for one insertion. -/
def canSet : List (String × Json) → String → List String → Bool
  | _, _, [] => true
  | ps, k, k2 :: rest =>
    match pyLookup k ps with
    | none => true
    | some (.obj child) => canSet child k2 rest
    | some _ => false

theorem cyc_refNodes_diverge (f : Nat) :
    resolve_schema_refs f (refNode "#/b") cycSchema = .diverge ∧
    resolve_schema_refs f (refNode "#/a") cycSchema = .diverge := by
  induction f with
  | zero => exact ⟨rfl, rfl⟩
  | succ f ih =>
    have hb : resolve_schema_refs (f + 1) (refNode "#/b") cycSchema =
        resolve_schema_refs f (refNode "#/a") cycSchema := rfl
    have ha : resolve_schema_refs (f + 1) (refNode "#/a") cycSchema =
        resolve_schema_refs f (refNode "#/b") cycSchema := rfl
    exact ⟨hb ▸ ih.2, ha ▸ ih.1⟩

/-! ## Claims -/

/-- C1: the specification requires `resolve_schema_refs` to terminate on a
cyclic document (A refs B, B refs A), leaving the cyclic node unresolved.
The source has no cycle detection: on the cyclic document the resolution has
not returned within ANY recursion budget — i.e. the Python call recurses
unboundedly (in practice, `RecursionError`) instead of terminating. -/
theorem c1_cyclic_resolution_diverges (fuel : Nat) :
    resolve_schema_refs fuel cycSchema cycSchema = .diverge := by
  cases fuel with
  | zero => rfl
  | succ f =>
    have h := (cyc_refNodes_diverge f).1
    have hmap : mapPResObj (fun v => resolve_schema_refs f v cycSchema)
        [("a", refNode "#/b"), ("b", refNode "#/a")] = .diverge := by
      simp [mapPResObj, h]
    have hstep : resolve_schema_refs (f + 1) cycSchema cycSchema =
        (match mapPResObj (fun v => resolve_schema_refs f v cycSchema)
            [("a", refNode "#/b"), ("b", refNode "#/a")] with
         | .diverge => PRes.diverge
         | .exn e => PRes.exn e
         | .ok r => PRes.ok (Json.obj r)) := rfl
    rw [hstep, hmap]

/-- C2: a node whose `$ref` pointer fails to resolve (absent segment,
non-container on the path, or a pointer not starting with `#/` — all the
cases in which `resolve_ref` returns `None`) is returned unchanged, without
raising and within a constant recursion budget; and a sibling of such a node
in an enclosing container is still resolved normally. -/
theorem c2_unresolvable_ref_degrades_in_place
    (ps : List (String × Json)) (p : String) (schema : Json)
    (href : pyLookup "$ref" ps = some (.str p))
    (hfail : resolve_ref p schema = none) :
    (∀ f, resolve_schema_refs (f + 1) (.obj ps) schema = .ok (.obj ps)) ∧
    (∀ f g r, resolve_schema_refs (f + 1) g schema = .ok r →
      resolve_schema_refs (f + 2) (.obj [("bad", .obj ps), ("good", g)]) schema =
        .ok (.obj [("bad", .obj ps), ("good", r)])) := by
  have h1 : ∀ f, resolve_schema_refs (f + 1) (.obj ps) schema = .ok (.obj ps) := by
    intro f
    simp [resolve_schema_refs, href, hfail]
  refine ⟨h1, ?_⟩
  intro f g r hg
  have hb : resolve_schema_refs (f + 1) (Json.obj ps) schema = .ok (.obj ps) := h1 f
  have hmap : mapPResObj (fun v => resolve_schema_refs (f + 1) v schema)
      [("bad", .obj ps), ("good", g)] = .ok [("bad", .obj ps), ("good", r)] := by
    simp [mapPResObj, hb, hg]
  have hstep : resolve_schema_refs (f + 2) (.obj [("bad", .obj ps), ("good", g)]) schema =
      (match mapPResObj (fun v => resolve_schema_refs (f + 1) v schema)
          [("bad", .obj ps), ("good", g)] with
       | .diverge => PRes.diverge
       | .exn e => PRes.exn e
       | .ok r2 => PRes.ok (Json.obj r2)) := rfl
  rw [hstep, hmap]

/-- C2 witness: the pointer `#/nope` does not resolve in `{"x": "y"}`; the
`$ref` node survives unchanged and its sibling is still processed. -/
theorem c2_witness :
    resolve_schema_refs 1 (.obj [("$ref", .str "#/nope")]) (.obj [("x", .str "y")]) =
      .ok (.obj [("$ref", .str "#/nope")]) ∧
    resolve_schema_refs 2
        (.obj [("bad", .obj [("$ref", .str "#/nope")]), ("good", .str "q")])
        (.obj [("x", .str "y")]) =
      .ok (.obj [("bad", .obj [("$ref", .str "#/nope")]), ("good", .str "q")]) := by
  have h := c2_unresolvable_ref_degrades_in_place
    [("$ref", Json.str "#/nope")] "#/nope" (.obj [("x", .str "y")]) rfl rfl
  exact ⟨h.1 0, h.2 0 (.str "q") (.str "q") rfl⟩

/-- C10: when the pointer lookup succeeds but the referent is falsy (here:
the empty object, empty list, empty string, `0`, `false` or `null`), the
truthiness test `if resolved:` sends resolution down the failure branch and
the original `$ref` node is returned unchanged instead of the referent. -/
theorem c10_falsy_referent_kept
    (ps : List (String × Json)) (p : String) (schema r : Json) (f : Nat)
    (href : pyLookup "$ref" ps = some (.str p))
    (hres : resolve_ref p schema = some r)
    (hfalsy : pyTruthy r = false) :
    resolve_schema_refs (f + 1) (.obj ps) schema = .ok (.obj ps) := by
  simp [resolve_schema_refs, href, hres, hfalsy]

/-- C10 witness: `#/empty` resolves to the falsy referent `{}` inside
`{"empty": {}}`, and the `$ref` node is kept. -/
theorem c10_witness :
    resolve_schema_refs 1 (.obj [("$ref", .str "#/empty")]) (.obj [("empty", .obj [])]) =
      .ok (.obj [("$ref", .str "#/empty")]) :=
  c10_falsy_referent_kept [("$ref", .str "#/empty")] "#/empty"
    (.obj [("empty", .obj [])]) (.obj []) 0 rfl rfl rfl

/-- C3 counterexample: on the documented input `{"x": "1", "x.y": "2"}`
(processed in insertion order), assembly does NOT complete with a silent
overwrite: descending through the leaf string at `x` raises `TypeError`. -/
theorem c3_counterexample :
    parse_nested_form_data [("x", "1"), ("x.y", "2")] = .error "TypeError" := rfl

/-- C3 amended: the silent last-write-wins overwrite holds only in the
map-overwritten-by-leaf direction — a later undotted key replaces an
assembled map, and a later shorter dotted path replaces a nested map. In the
opposite direction (a dotted path that must descend through a segment already
holding a leaf string) assembly raises `TypeError` instead of completing, so
processing order does affect whether assembly completes at all. -/
theorem c3_amended_overwrite_policy :
    parse_nested_form_data [("x", "1"), ("x.y", "2")] = .error "TypeError" ∧
    parse_nested_form_data [("x.y", "2"), ("x", "1")] = .ok (.obj [("x", .str "1")]) ∧
    parse_nested_form_data [("x.y.z", "1"), ("x.y", "2")] =
      .ok (.obj [("x", .obj [("y", .str "2")])]) :=
  ⟨rfl, rfl, rfl⟩

theorem fieldPass_empty_props (fuel : Nat) (resolved : Json) :
    ∀ d : List (String × Json), fieldPass fuel (.obj []) resolved d = .ok []
  | [] => rfl
  | (k, v) :: rest => by
    have ih := fieldPass_empty_props fuel resolved rest
    simp [fieldPass, pyContains, pyLookup, ih]

/-- C9: the specification demands that a missing or malformed `schema.json`
be fatal at startup. In the source, `load_schema` instead prints a diagnostic
and substitutes the empty document `{}`; the process keeps running and — as
the last conjunct shows — `validate_against_schema` then accepts every
submission against that silently substituted empty schema. -/
theorem c9_load_failure_not_fatal :
    load_schema .missing = .obj [] ∧
    (∀ m, load_schema (.badJson m) = .obj []) ∧
    (∀ f d, validate_against_schema (f + 1) (.obj d) (load_schema .missing) = .ok []) := by
  refine ⟨rfl, fun m => rfl, fun f d => ?_⟩
  have hfp := fieldPass_empty_props (f + 1) (.obj []) d
  simp [validate_against_schema, load_schema, resolve_schema_refs, mapPResObj,
    pyLookup, pyDictGet, requiredPass, pyIter, requiredGo, hfp, Bind.bind, Except.bind]

theorem requiredGo_strs (d : List (String × Json)) :
    ∀ rs : List String,
      requiredGo (.obj d) (rs.map .str) =
        .ok ((rs.filter (reqViol d)).map (fun f => "Field \x27" ++ f ++ "\x27 is required"))
  | [] => rfl
  | f :: rest => by
    have ih := requiredGo_strs d rest
    simp only [List.map_cons, requiredGo, requiredCheckOne, pyContains, pyFormatJ,
      Bind.bind, Except.bind, ih]
    cases h : pyLookup f d with
    | none => simp [h, reqViol, List.filter]
    | some v =>
      simp [h, pyIndex, reqViol, List.filter]
      cases hb : beqJ v (.str "") <;> simp [hb]

/-- C5: the required-field pass of `validate_against_schema` emits
`Field '<name>' is required` for exactly those names of the schema's
`required` list whose key is absent from the data dict or mapped to the empty
string — a required field with a non-empty present value contributes no
required message. -/
theorem c5_required_pass_exact (rs : List String) (d : List (String × Json)) :
    requiredPass (.arr (rs.map .str)) (.obj d) =
      .ok ((rs.filter (reqViol d)).map (fun f => "Field \x27" ++ f ++ "\x27 is required")) := by
  simp [requiredPass, pyIter, Bind.bind, Except.bind, requiredGo_strs]

theorem pyLookup_dictSet_self (k : String) (v : Json) :
    ∀ ps, pyLookup k (dictSet ps k v) = some v
  | [] => by simp [dictSet, pyLookup]
  | (k2, v2) :: rest => by
    by_cases h : k2 = k
    · simp [dictSet, pyLookup, h]
    · simp [dictSet, pyLookup, h, pyLookup_dictSet_self k v rest]

theorem pyLookup_dictSet_other (k k2 : String) (v : Json) (hne : k2 ≠ k) :
    ∀ ps, pyLookup k2 (dictSet ps k v) = pyLookup k2 ps
  | [] => by
    have h2 : ¬ k = k2 := fun hh => hne hh.symm
    simp [dictSet, pyLookup, h2]
  | (k3, v3) :: rest => by
    by_cases h : k3 = k
    · have h2 : ¬ k = k2 := fun hh => hne hh.symm
      simp [dictSet, pyLookup, h, h2]
    · simp [dictSet, pyLookup, h, pyLookup_dictSet_other k k2 v hne rest]

theorem noPrefixPair_comm (p q : List String) : noPrefixPair p q = noPrefixPair q p := by
  simp [noPrefixPair, Bool.and_comm]

theorem noPrefixPair_nil_right (p : List String) : noPrefixPair p [] = false := by
  cases p <;> simp [noPrefixPair, List.isPrefixOf]

theorem noPrefixPair_cons_same (k : String) (p q : List String) :
    noPrefixPair (k :: p) (k :: q) = noPrefixPair p q := by
  simp [noPrefixPair, List.isPrefixOf]

theorem noPrefixPair_cons_ne (k k2 : String) (hne : k2 ≠ k) (p q : List String) :
    noPrefixPair (k :: p) (k2 :: q) = true := by
  have h0 : ¬ k = k2 := fun hh => hne hh.symm
  have h1 : (k2 == k) = false := by simp [hne]
  have h2 : (k == k2) = false := by simp [h0]
  simp [noPrefixPair, List.isPrefixOf, h1, h2]

theorem getPath_obj_cons (ps : List (String × Json)) (k : String) (rest : List String) :
    getPath (.obj ps) (k :: rest) =
      (match pyLookup k ps with
       | some w => getPath w rest
       | none => none) := rfl

theorem setPath_get_same (v : Json) :
    ∀ (rest : List String) (ps ps' : List (String × Json)) (k : String),
      setPath ps k rest v = .ok ps' → getPath (.obj ps') (k :: rest) = some v
  | [], ps, ps', k => by
    intro h
    obtain rfl : dictSet ps k v = ps' := Except.ok.inj h
    simp [getPath, pyLookup_dictSet_self]
  | k2 :: r, ps, ps', k => by
    intro h
    rw [setPath] at h
    split at h
    · rename_i child heq
      split at h
      · rename_i child2 heq2
        obtain rfl : dictSet ps k (.obj child2) = ps' := Except.ok.inj h
        have hg := setPath_get_same v r child child2 k2 heq2
        rw [getPath_obj_cons, pyLookup_dictSet_self]
        exact hg
      · simp at h
    · simp at h
    · split at h
      · rename_i child2 heq2
        obtain rfl : dictSet ps k (.obj child2) = ps' := Except.ok.inj h
        have hg := setPath_get_same v r [] child2 k2 heq2
        rw [getPath_obj_cons, pyLookup_dictSet_self]
        exact hg
      · simp at h

theorem noPrefixPair_nil_left (q : List String) : noPrefixPair [] q = false := by
  simp [noPrefixPair, List.isPrefixOf]

theorem setPath_get_preserve (v : Json) :
    ∀ (rest : List String) (ps ps' : List (String × Json)) (k : String) (q : List String),
      setPath ps k rest v = .ok ps' → noPrefixPair (k :: rest) q = true →
      getPath (.obj ps') q = getPath (.obj ps) q
  | [], ps, ps', k, q => by
    intro h hnp
    obtain rfl : dictSet ps k v = ps' := Except.ok.inj h
    cases q with
    | nil => rw [noPrefixPair_nil_right] at hnp; exact absurd hnp (by simp)
    | cons q0 qr =>
      by_cases hq : q0 = k
      · subst hq
        rw [noPrefixPair_cons_same, noPrefixPair_nil_left] at hnp
        exact absurd hnp (by simp)
      · rw [getPath_obj_cons, getPath_obj_cons, pyLookup_dictSet_other k q0 v hq]
  | k2 :: r, ps, ps', k, q => by
    intro h hnp
    rw [setPath] at h
    cases q with
    | nil => rw [noPrefixPair_nil_right] at hnp; exact absurd hnp (by simp)
    | cons q0 qr =>
      by_cases hq : q0 = k
      · subst hq
        rw [noPrefixPair_cons_same] at hnp
        cases qr with
        | nil => rw [noPrefixPair_nil_right] at hnp; exact absurd hnp (by simp)
        | cons q2 qr2 =>
          split at h
          · rename_i child heq
            split at h
            · rename_i child2 heq2
              obtain rfl : dictSet ps q0 (.obj child2) = ps' := Except.ok.inj h
              rw [getPath_obj_cons, getPath_obj_cons, pyLookup_dictSet_self, heq]
              exact setPath_get_preserve v r child child2 k2 (q2 :: qr2) heq2 hnp
            · simp at h
          · simp at h
          · rename_i heq
            split at h
            · rename_i child2 heq2
              obtain rfl : dictSet ps q0 (.obj child2) = ps' := Except.ok.inj h
              rw [getPath_obj_cons, getPath_obj_cons, pyLookup_dictSet_self, heq]
              have hz := setPath_get_preserve v r [] child2 k2 (q2 :: qr2) heq2 hnp
              simpa [getPath_obj_cons, pyLookup] using hz
            · simp at h
      · split at h
        · rename_i child heq
          split at h
          · rename_i child2 heq2
            obtain rfl : dictSet ps k (.obj child2) = ps' := Except.ok.inj h
            rw [getPath_obj_cons, getPath_obj_cons, pyLookup_dictSet_other k q0 _ hq]
          · simp at h
        · simp at h
        · rename_i heq
          split at h
          · rename_i child2 heq2
            obtain rfl : dictSet ps k (.obj child2) = ps' := Except.ok.inj h
            rw [getPath_obj_cons, getPath_obj_cons, pyLookup_dictSet_other k q0 _ hq]
          · simp at h

theorem canSet_nil (k : String) : ∀ rest, canSet [] k rest = true
  | [] => rfl
  | _ :: _ => rfl

theorem canSet_congr (ps ps' : List (String × Json)) (q0 : String) (qr : List String)
    (h : pyLookup q0 ps' = pyLookup q0 ps) : canSet ps' q0 qr = canSet ps q0 qr := by
  cases qr with
  | nil => rfl
  | cons q2 qr2 => rw [canSet, canSet, h]

theorem setPath_ok_of_canSet (v : Json) :
    ∀ (rest : List String) (ps : List (String × Json)) (k : String),
      canSet ps k rest = true → ∃ ps', setPath ps k rest v = .ok ps'
  | [], ps, k => fun _ => ⟨dictSet ps k v, rfl⟩
  | k2 :: r, ps, k => by
    intro hc
    rw [canSet] at hc
    split at hc
    · rename_i heq
      obtain ⟨child2, hs⟩ := setPath_ok_of_canSet v r [] k2 (canSet_nil k2 r)
      exact ⟨dictSet ps k (.obj child2), by rw [setPath, heq]; simp [hs]⟩
    · rename_i child heq
      obtain ⟨child2, hs⟩ := setPath_ok_of_canSet v r child k2 hc
      exact ⟨dictSet ps k (.obj child2), by rw [setPath, heq]; simp [hs]⟩
    · simp at hc

theorem canSet_preserve (v : Json) :
    ∀ (rest : List String) (ps ps' : List (String × Json)) (k q0 : String) (qr : List String),
      setPath ps k rest v = .ok ps' → noPrefixPair (k :: rest) (q0 :: qr) = true →
      canSet ps q0 qr = true → canSet ps' q0 qr = true
  | [], ps, ps', k, q0, qr => by
    intro h hnp hc
    obtain rfl : dictSet ps k v = ps' := Except.ok.inj h
    by_cases hq : q0 = k
    · subst hq
      rw [noPrefixPair_cons_same, noPrefixPair_nil_left] at hnp
      exact absurd hnp (by simp)
    · rw [canSet_congr ps (dictSet ps k v) q0 qr (pyLookup_dictSet_other k q0 v hq ps)]
      exact hc
  | k2 :: r, ps, ps', k, q0, qr => by
    intro h hnp hc
    rw [setPath] at h
    by_cases hq : q0 = k
    · subst hq
      rw [noPrefixPair_cons_same] at hnp
      cases qr with
      | nil => cases ps' <;> exact rfl
      | cons q2 qr2 =>
        rw [canSet] at hc
        split at h
        · rename_i child heq
          split at h
          · rename_i child2 heq2
            obtain rfl : dictSet ps q0 (.obj child2) = ps' := Except.ok.inj h
            rw [heq] at hc
            rw [canSet, pyLookup_dictSet_self]
            exact canSet_preserve v r child child2 k2 q2 qr2 heq2 hnp hc
          · simp at h
        · simp at h
        · rename_i heq
          split at h
          · rename_i child2 heq2
            obtain rfl : dictSet ps q0 (.obj child2) = ps' := Except.ok.inj h
            rw [canSet, pyLookup_dictSet_self]
            exact canSet_preserve v r [] child2 k2 q2 qr2 heq2 hnp (canSet_nil q2 qr2)
          · simp at h
    · split at h
      · rename_i child heq
        split at h
        · rename_i child2 heq2
          obtain rfl : dictSet ps k (.obj child2) = ps' := Except.ok.inj h
          rw [canSet_congr ps (dictSet ps k (.obj child2)) q0 qr
            (pyLookup_dictSet_other k q0 (.obj child2) hq ps)]
          exact hc
        · simp at h
      · simp at h
      · rename_i heq
        split at h
        · rename_i child2 heq2
          obtain rfl : dictSet ps k (.obj child2) = ps' := Except.ok.inj h
          rw [canSet_congr ps (dictSet ps k (.obj child2)) q0 qr
            (pyLookup_dictSet_other k q0 (.obj child2) hq ps)]
          exact hc
        · simp at h

theorem splitOnCharAux_ne_nil (c : Char) :
    ∀ (l acc : List Char), splitOnCharAux c acc l ≠ []
  | [], acc => by simp [splitOnCharAux]
  | x :: xs, acc => by
    by_cases h : x = c
    · simp [splitOnCharAux, h]
    · simpa [splitOnCharAux, h] using splitOnCharAux_ne_nil c xs (x :: acc)

theorem pathOf_ne_nil (k : String) : pathOf k ≠ [] := by
  rw [pathOf, splitOnChar]
  intro h
  exact splitOnCharAux_ne_nil '.' k.data [] (List.map_eq_nil_iff.mp h)

theorem splitOnCharAux_no_sep (c : Char) :
    ∀ (l acc : List Char), l.any (fun x => (x = c : Bool)) = false →
      splitOnCharAux c acc l = [acc.reverse ++ l]
  | [], acc => by intro _; simp [splitOnCharAux]
  | x :: xs, acc => by
    intro h
    rw [List.any_cons, Bool.or_eq_false_iff] at h
    have hx : ¬ x = c := by simpa using h.1
    rw [splitOnCharAux, if_neg hx, splitOnCharAux_no_sep c xs (x :: acc) h.2]
    simp

theorem pathOf_no_dot (k : String) (h : strHasChar '.' k = false) : pathOf k = [k] := by
  rw [pathOf, splitOnChar, splitOnCharAux_no_sep '.' k.data [] h]
  simp

theorem assembleGo_spec :
    ∀ (flat : List (String × String)) (acc : List (String × Json)),
      prefixFreeB (flat.map (fun kv => pathOf kv.1)) = true →
      (∀ kv ∈ flat, ∀ k0 rest, pathOf kv.1 = k0 :: rest → canSet acc k0 rest = true) →
      ∃ ps, assembleGo flat acc = .ok ps ∧
        (∀ kv ∈ flat, getPath (.obj ps) (pathOf kv.1) = some (.str kv.2)) ∧
        (∀ q, flat.all (fun kv => noPrefixPair (pathOf kv.1) q) = true →
          getPath (.obj ps) q = getPath (.obj acc) q)
  | [], acc => by
    intro _ _
    exact ⟨acc, rfl, by simp, fun q _ => rfl⟩
  | (k, v) :: rest, acc => by
    intro hpf hcs
    simp only [List.map_cons, prefixFreeB, Bool.and_eq_true] at hpf
    obtain ⟨hpf1, hpf2⟩ := hpf
    cases hsp : pathOf k with
    | nil => exact absurd hsp (pathOf_ne_nil k)
    | cons p0 parts =>
      have hck : canSet acc p0 parts = true := hcs (k, v) (by simp) p0 parts hsp
      obtain ⟨acc2, hset⟩ := setPath_ok_of_canSet (.str v) parts acc p0 hck
      have hstep : assembleGo ((k, v) :: rest) acc = assembleGo rest acc2 := by
        cases hdot : strHasChar '.' k with
        | true =>
          have hsp2 : splitOnChar '.' k = p0 :: parts := hsp
          rw [assembleGo, if_pos hdot, hsp2]
          simp [hset]
        | false =>
          have hpk : pathOf k = [k] := pathOf_no_dot k hdot
          rw [hsp] at hpk
          obtain ⟨hpk1, hpk2⟩ := List.cons.inj hpk
          subst hpk1; subst hpk2
          obtain rfl : acc2 = dictSet acc p0 (.str v) := (Except.ok.inj hset).symm
          rw [assembleGo, if_neg (by simp [hdot])]
      have hcs2 : ∀ kv ∈ rest, ∀ k0 r0, pathOf kv.1 = k0 :: r0 → canSet acc2 k0 r0 = true := by
        intro kv hkv k0 r0 hpkv
        have hnp0 := List.all_eq_true.1 hpf1 (pathOf kv.1) (List.mem_map_of_mem _ hkv)
        rw [hsp, hpkv] at hnp0
        exact canSet_preserve (.str v) parts acc acc2 p0 k0 r0 hset (by simpa using hnp0)
          (hcs kv (by simp [hkv]) k0 r0 hpkv)
      obtain ⟨ps, hgo, hlook, hpres⟩ := assembleGo_spec rest acc2 hpf2 hcs2
      refine ⟨ps, by rw [hstep]; exact hgo, ?_, ?_⟩
      · intro kv hkv
        rcases List.mem_cons.mp hkv with heq | hmem
        · subst heq
          have hall2 : rest.all (fun kv2 => noPrefixPair (pathOf kv2.1) (p0 :: parts)) = true := by
            rw [List.all_eq_true]
            intro kv2 hkv2
            have hx := List.all_eq_true.1 hpf1 (pathOf kv2.1) (List.mem_map_of_mem _ hkv2)
            rw [hsp] at hx
            rw [noPrefixPair_comm]
            exact hx
          rw [hsp, hpres (p0 :: parts) hall2]
          exact setPath_get_same (.str v) parts acc acc2 p0 hset
        · exact hlook kv hmem
      · intro q hq
        rw [List.all_cons, Bool.and_eq_true] at hq
        rw [hpres q hq.2]
        have hq1 := hq.1
        rw [hsp] at hq1
        exact setPath_get_preserve (.str v) parts acc acc2 p0 q hset hq1

/-- C8: for a flat submission whose keys collide at no segment (no key's
dotted path is an initial segment of another's), assembly succeeds and builds
the nested tree the spec describes: every dotted key's value sits at the leaf
reached by descending through its segments (dot-free keys being the
single-segment case); in particular the spec's example
`{"a.b.c": "1", "a.b.d": "2"}` assembles to exactly
`{"a": {"b": {"c": "1", "d": "2"}}}`. -/
theorem c8_collision_free_assembly :
    (∀ flat : List (String × String),
      prefixFreeB (flat.map (fun kv => pathOf kv.1)) = true →
      ∃ ps, parse_nested_form_data flat = .ok (.obj ps) ∧
        ∀ kv ∈ flat, getPath (.obj ps) (pathOf kv.1) = some (.str kv.2)) ∧
    parse_nested_form_data [("a.b.c", "1"), ("a.b.d", "2")] =
      .ok (.obj [("a", .obj [("b", .obj [("c", .str "1"), ("d", .str "2")])])]) := by
  constructor
  · intro flat hpf
    obtain ⟨ps, hgo, hlook, _⟩ := assembleGo_spec flat [] hpf
      (fun kv _ k0 rest _ => canSet_nil k0 rest)
    exact ⟨ps, by rw [parse_nested_form_data, hgo], hlook⟩
  · rfl

/-- C8 witness: the general collision-free statement applied to the spec's
example input, whose paths `a.b.c` and `a.b.d` are prefix-free. -/
theorem c8_witness :
    ∃ ps, parse_nested_form_data [("a.b.c", "1"), ("a.b.d", "2")] = .ok (.obj ps) ∧
      ∀ kv ∈ [(("a.b.c" : String), ("1" : String)), ("a.b.d", "2")],
        getPath (.obj ps) (pathOf kv.1) = some (.str kv.2) :=
  c8_collision_free_assembly.1 [("a.b.c", "1"), ("a.b.d", "2")] (by rfl)

theorem pyLookup_mem (k : String) :
    ∀ ps : List (String × Json), ∀ v, pyLookup k ps = some v → (k, v) ∈ ps
  | [], v => by simp [pyLookup]
  | (k2, v2) :: rest, v => by
    by_cases h : k2 = k
    · subst h
      intro hv
      rw [pyLookup, if_pos rfl] at hv
      obtain rfl := Option.some.inj hv
      exact List.mem_cons_self _ _
    · rw [pyLookup, if_neg h]
      intro hv
      exact List.mem_cons_of_mem _ (pyLookup_mem k rest v hv)

theorem jsize_pos : ∀ j : Json, 1 ≤ jsize j
  | .null => le_refl 1
  | .bool _ => le_refl 1
  | .num _ => le_refl 1
  | .str _ => le_refl 1
  | .arr _ => by rw [jsize]; omega
  | .obj _ => by rw [jsize]; omega

theorem jsizeO_mem : ∀ (ps : List (String × Json)) (kv : String × Json),
    kv ∈ ps → jsize kv.2 ≤ jsizeO ps
  | [], kv => by simp
  | p :: rest, kv => by
    intro h
    rcases List.mem_cons.mp h with h1 | h2
    · subst h1; rw [jsizeO]; omega
    · have := jsizeO_mem rest kv h2
      rw [jsizeO]
      omega

theorem jsizeL_mem : ∀ (xs : List Json) (x : Json), x ∈ xs → jsize x ≤ jsizeL xs
  | [], x => by simp
  | y :: rest, x => by
    intro h
    rcases List.mem_cons.mp h with h1 | h2
    · subst h1; rw [jsizeL]; omega
    · have := jsizeL_mem rest x h2
      rw [jsizeL]
      omega

theorem noRefsO_mem : ∀ (ps : List (String × Json)) (kv : String × Json),
    noRefsO ps = true → kv ∈ ps → noRefs kv.2 = true
  | [], kv => by simp
  | p :: rest, kv => by
    intro hn h
    rw [noRefsO, Bool.and_eq_true] at hn
    rcases List.mem_cons.mp h with h1 | h2
    · subst h1; exact hn.1
    · exact noRefsO_mem rest kv hn.2 h2

theorem noRefsL_mem : ∀ (xs : List Json) (x : Json),
    noRefsL xs = true → x ∈ xs → noRefs x = true
  | [], x => by simp
  | y :: rest, x => by
    intro hn h
    rw [noRefsL, Bool.and_eq_true] at hn
    rcases List.mem_cons.mp h with h1 | h2
    · subst h1; exact hn.1
    · exact noRefsL_mem rest x hn.2 h2

theorem mapPResObj_id (f : Nat) (s : Json) :
    ∀ ps : List (String × Json),
      (∀ kv ∈ ps, resolve_schema_refs f kv.2 s = .ok kv.2) →
      mapPResObj (fun v => resolve_schema_refs f v s) ps = .ok ps
  | [] => fun _ => rfl
  | (k, v) :: rest => by
    intro h
    rw [mapPResObj, h (k, v) (by simp),
      mapPResObj_id f s rest (fun kv hkv => h kv (by simp [hkv]))]

theorem mapPResList_id (f : Nat) (s : Json) :
    ∀ xs : List Json,
      (∀ x ∈ xs, resolve_schema_refs f x s = .ok x) →
      mapPResList (fun v => resolve_schema_refs f v s) xs = .ok xs
  | [] => fun _ => rfl
  | x :: rest => by
    intro h
    rw [mapPResList, h x (by simp),
      mapPResList_id f s rest (fun y hy => h y (by simp [hy]))]

theorem resolve_id : ∀ (f : Nat) (j s : Json), noRefs j = true → jsize j ≤ f →
    resolve_schema_refs f j s = .ok j
  | 0, j, s => by
    intro _ h
    have := jsize_pos j
    omega
  | _ + 1, .null, _ => fun _ _ => rfl
  | _ + 1, .bool _, _ => fun _ _ => rfl
  | _ + 1, .num _, _ => fun _ _ => rfl
  | _ + 1, .str _, _ => fun _ _ => rfl
  | f + 1, .arr xs, s => by
    intro hnr hsz
    rw [noRefs] at hnr
    rw [jsize] at hsz
    rw [resolve_schema_refs, mapPResList_id f s xs
      (fun x hx => resolve_id f x s (noRefsL_mem xs x hnr hx)
        (by have := jsizeL_mem xs x hx; omega))]
  | f + 1, .obj ps, s => by
    intro hnr hsz
    rw [noRefs, Bool.and_eq_true] at hnr
    rw [jsize] at hsz
    have hlk : pyLookup "$ref" ps = none := Option.isNone_iff_eq_none.mp hnr.1
    rw [resolve_schema_refs, hlk, mapPResObj_id f s ps
      (fun kv hkv => resolve_id f kv.2 s (noRefsO_mem ps kv hnr.2 hkv)
        (by have := jsizeO_mem ps kv hkv; omega))]

theorem checkMinLength_ok (fn sv : String) (fs : List (String × Json))
    (h : wfBound fs "minLength" = true) :
    ∃ a, checkMinLength fn (.str sv) fs = .ok a := by
  cases hml : pyLookup "minLength" fs with
  | none => exact ⟨[], by rw [checkMinLength, hml]⟩
  | some b =>
    rw [wfBound, hml] at h
    cases b with
    | num n => exact ⟨_, by rw [checkMinLength, hml]; exact rfl⟩
    | bool b2 => exact ⟨_, by rw [checkMinLength, hml]; exact rfl⟩
    | null => simp at h
    | str s2 => simp at h
    | arr xs => simp at h
    | obj ps => simp at h

theorem checkMaxLength_ok (fn sv : String) (fs : List (String × Json))
    (h : wfBound fs "maxLength" = true) :
    ∃ a, checkMaxLength fn (.str sv) fs = .ok a := by
  cases hml : pyLookup "maxLength" fs with
  | none => exact ⟨[], by rw [checkMaxLength, hml]⟩
  | some b =>
    rw [wfBound, hml] at h
    cases b with
    | num n => exact ⟨_, by rw [checkMaxLength, hml]; exact rfl⟩
    | bool b2 => exact ⟨_, by rw [checkMaxLength, hml]; exact rfl⟩
    | null => simp at h
    | str s2 => simp at h
    | arr xs => simp at h
    | obj ps => simp at h

theorem checkPattern_ok (fn sv : String) (fs : List (String × Json))
    (h : (match pyLookup "pattern" fs with
          | none => true
          | some (.str p) => (parseRegex p).isSome
          | some _ => false) = true) :
    ∃ a, checkPattern fn (.str sv) fs = .ok a := by
  cases hml : pyLookup "pattern" fs with
  | none => exact ⟨[], by rw [checkPattern, hml]⟩
  | some p =>
    rw [hml] at h
    cases p with
    | str ps =>
      obtain ⟨r, hr⟩ := Option.isSome_iff_exists.mp (by simpa using h)
      exact ⟨_, by rw [checkPattern, hml]; simp [re_match, hr, Bind.bind, Except.bind]; exact rfl⟩
    | null => simp at h
    | bool b2 => simp at h
    | num n => simp at h
    | arr xs => simp at h
    | obj ps => simp at h

theorem joinStrs_ok :
    ∀ xs : List Json,
      xs.all (fun x => match x with | .str _ => true | _ => false) = true →
      ∃ l, joinStrs xs = .ok l
  | [] => fun _ => ⟨[], rfl⟩
  | x :: rest => by
    intro h
    rw [List.all_cons, Bool.and_eq_true] at h
    cases x with
    | str s =>
      obtain ⟨l, hl⟩ := joinStrs_ok rest h.2
      exact ⟨s :: l, by rw [joinStrs, hl]⟩
    | null => simp at h
    | bool b2 => simp at h
    | num n => simp at h
    | arr xs => simp at h
    | obj ps => simp at h

theorem checkEnum_ok (fn sv : String) (fs : List (String × Json))
    (h : (match pyLookup "enum" fs with
          | none => true
          | some (.arr xs) => xs.all (fun x => match x with | .str _ => true | _ => false)
          | some _ => false) = true) :
    ∃ a, checkEnum fn (.str sv) fs = .ok a := by
  cases hml : pyLookup "enum" fs with
  | none => exact ⟨[], by rw [checkEnum, hml]⟩
  | some ej =>
    rw [hml] at h
    cases ej with
    | arr xs =>
      cases hmem : xs.any (beqJ (.str sv)) with
      | true =>
        exact ⟨[], by rw [checkEnum, hml]; simp [pyContains, hmem, Bind.bind, Except.bind]⟩
      | false =>
        obtain ⟨l, hl⟩ := joinStrs_ok xs (by simpa using h)
        exact ⟨_, by
          rw [checkEnum, hml]
          simp [pyContains, hmem, pyJoinComma, hl, Bind.bind, Except.bind]
          exact rfl⟩
    | null => simp at h
    | bool b2 => simp at h
    | num n => simp at h
    | str s2 => simp at h
    | obj ps => simp at h

theorem checkEmail_ok (fn sv : String) (fs : List (String × Json)) :
    ∃ a, checkEmail fn (.str sv) fs = .ok a := by
  cases hb : beqJ ((pyLookup "format" fs).getD .null) (.str "email") with
  | true => exact ⟨_, by rw [checkEmail, if_pos hb]⟩
  | false => exact ⟨[], by rw [checkEmail, if_neg (by simp [hb])]⟩

theorem checkMinimum_ok (fn : String) (q : PyNum) (fs : List (String × Json))
    (h : wfBound fs "minimum" = true) :
    ∃ a, checkMinimum fn q fs = .ok a := by
  cases hml : pyLookup "minimum" fs with
  | none => exact ⟨[], by rw [checkMinimum, hml]⟩
  | some b =>
    rw [wfBound, hml] at h
    cases b with
    | num n => exact ⟨_, by rw [checkMinimum, hml]; exact rfl⟩
    | bool b2 => exact ⟨_, by rw [checkMinimum, hml]; exact rfl⟩
    | null => simp at h
    | str s2 => simp at h
    | arr xs => simp at h
    | obj ps => simp at h

theorem checkMaximum_ok (fn : String) (q : PyNum) (fs : List (String × Json))
    (h : wfBound fs "maximum" = true) :
    ∃ a, checkMaximum fn q fs = .ok a := by
  cases hml : pyLookup "maximum" fs with
  | none => exact ⟨[], by rw [checkMaximum, hml]⟩
  | some b =>
    rw [wfBound, hml] at h
    cases b with
    | num n => exact ⟨_, by rw [checkMaximum, hml]; exact rfl⟩
    | bool b2 => exact ⟨_, by rw [checkMaximum, hml]; exact rfl⟩
    | null => simp at h
    | str s2 => simp at h
    | arr xs => simp at h
    | obj ps => simp at h

theorem coerceNum_str_cases (b : Bool) (sv : String) :
    coerceNum b (.str sv) = .error "ValueError" ∨ ∃ q, coerceNum b (.str sv) = .ok q := by
  cases b with
  | true =>
    cases hp : pyIntOfString sv with
    | none => exact Or.inl (by simp [coerceNum, hp])
    | some n => exact Or.inr ⟨_, by simp [coerceNum, hp]; exact rfl⟩
  | false =>
    cases hp : pyFloatOfString sv with
    | none => exact Or.inl (by simp [coerceNum, hp])
    | some q => exact Or.inr ⟨q, by simp [coerceNum, hp]⟩

theorem vfv_str_ok (fn sv : String) (fs : List (String × Json))
    (hwf : wfFieldSchema (.obj fs) = true) :
    ∃ msgs, validate_field_value fn (.str sv) (.obj fs) = .ok msgs := by
  rw [wfFieldSchema] at hwf
  cases hstr : beqJ ((pyLookup "type" fs).getD (.str "string")) (.str "string") with
  | true =>
    rw [if_pos hstr] at hwf
    rw [Bool.and_eq_true, Bool.and_eq_true, Bool.and_eq_true] at hwf
    obtain ⟨⟨⟨h1, h2⟩, h3⟩, h4⟩ := hwf
    obtain ⟨a1, ha1⟩ := checkMinLength_ok fn sv fs h1
    obtain ⟨a2, ha2⟩ := checkMaxLength_ok fn sv fs h2
    obtain ⟨a3, ha3⟩ := checkPattern_ok fn sv fs h3
    obtain ⟨a4, ha4⟩ := checkEnum_ok fn sv fs h4
    obtain ⟨a5, ha5⟩ := checkEmail_ok fn sv fs
    exact ⟨a1 ++ a2 ++ a3 ++ a4 ++ a5, by
      simp [validate_field_value, hstr, ha1, ha2, ha3, ha4, ha5, Bind.bind, Except.bind]⟩
  | false =>
    rw [if_neg (by simp [hstr])] at hwf
    cases hnum : (beqJ ((pyLookup "type" fs).getD (.str "string")) (.str "integer") ||
        beqJ ((pyLookup "type" fs).getD (.str "string")) (.str "number")) with
    | true =>
      rw [if_pos hnum, Bool.and_eq_true] at hwf
      obtain ⟨h1, h2⟩ := hwf
      rcases coerceNum_str_cases
          (beqJ ((pyLookup "type" fs).getD (.str "string")) (.str "integer")) sv with
        hc | ⟨q, hc⟩
      · exact ⟨_, by simp [validate_field_value, hstr, hnum, hc]; exact rfl⟩
      · obtain ⟨b1, hb1⟩ := checkMinimum_ok fn q fs h1
        obtain ⟨b2, hb2⟩ := checkMaximum_ok fn q fs h2
        exact ⟨b1 ++ b2, by
          simp [validate_field_value, hstr, hnum, hc, hb1, hb2, Bind.bind, Except.bind]⟩
    | false =>
      exact ⟨[], by simp [validate_field_value, hstr, hnum]⟩

theorem fieldPass_ok (fuel : Nat) (props : List (String × Json)) (resolved : Json)
    (hres : ∀ kv ∈ props, resolve_schema_refs fuel kv.2 resolved = .ok kv.2)
    (hwf : ∀ kv ∈ props, wfFieldSchema kv.2 = true) :
    ∀ d : List (String × Json),
      (∀ kv ∈ d, (pyLookup kv.1 props).isSome = true → ∃ s, kv.2 = Json.str s) →
      ∃ msgs, fieldPass fuel (.obj props) resolved d = .ok msgs
  | [] => fun _ => ⟨[], rfl⟩
  | (k, v) :: rest => by
    intro hd
    obtain ⟨more, hmore⟩ := fieldPass_ok fuel props resolved hres hwf rest
      (fun kv hkv h => hd kv (by simp [hkv]) h)
    cases hl : pyLookup k props with
    | none =>
      exact ⟨more, by simp [fieldPass, pyContains, hl, hmore]⟩
    | some fs0 =>
      obtain ⟨sv, hv⟩ := hd (k, v) (by simp)
        (show (pyLookup k props).isSome = true by rw [hl]; rfl)
      have hv2 : v = .str sv := hv
      subst hv2
      cases htr : pyTruthy (.str sv) with
      | false => exact ⟨more, by simp [fieldPass, pyContains, hl, htr, hmore]⟩
      | true =>
        have hwf0 := hwf (k, fs0) (pyLookup_mem k props fs0 hl)
        cases fs0 with
        | obj fsl =>
          obtain ⟨msgs0, hvv⟩ := vfv_str_ok k sv fsl hwf0
          exact ⟨msgs0 ++ more, by
            simp [fieldPass, pyContains, hl, htr, pyIndex,
              hres (k, .obj fsl) (pyLookup_mem k props (.obj fsl) hl), hvv, hmore]⟩
        | null => simp [wfFieldSchema] at hwf0
        | bool b2 => simp [wfFieldSchema] at hwf0
        | num n => simp [wfFieldSchema] at hwf0
        | str s2 => simp [wfFieldSchema] at hwf0
        | arr xs => simp [wfFieldSchema] at hwf0

/-- C4 counterexample: `validate_against_schema` DOES throw on a nested
submission of unexpected shape. With property `x` declared `integer` and the
submitted value for `x` being a nested map, `int({'y': '1'})` raises
`TypeError`, which the `except ValueError` handler does not catch: the pass
aborts instead of returning the accumulated message list. -/
theorem c4_counterexample :
    validate_against_schema 10 (.obj [("x", .obj [("y", .str "1")])])
      (.obj [("properties", .obj [("x", .obj [("type", .str "integer")])])]) =
      .exn "TypeError" := rfl

/-- C4 amended: validation returns the accumulated message list without
throwing provided every submitted value for a declared property is a string
leaf and the schema is benign: reference-free, with well-formed per-field
constraints (numeric length/range bounds, readable pattern, enum a list of
strings), a `required` list of names, and enough recursion budget for its
size. A nested-map value under a numeric property breaks this (see the
counterexample); values submitted under keys that name no declared property
are skipped by the pass and may have any shape. -/
theorem c4_amended_no_throw (fuel : Nat) (d sch props : List (String × Json)) (rs : List String)
    (hnr : noRefs (.obj sch) = true)
    (hfuel : jsize (.obj sch) ≤ fuel)
    (hdata : ∀ kv ∈ d, (pyLookup kv.1 props).isSome = true → ∃ s, kv.2 = Json.str s)
    (hprops : (pyLookup "properties" sch).getD (.obj []) = .obj props)
    (hwf : ∀ kv ∈ props, wfFieldSchema kv.2 = true)
    (hreq : (pyLookup "required" sch).getD (.arr []) = .arr (rs.map .str)) :
    ∃ msgs, validate_against_schema fuel (.obj d) (.obj sch) = .ok msgs := by
  have hresolved : resolve_schema_refs fuel (.obj sch) (.obj sch) = .ok (.obj sch) :=
    resolve_id fuel (.obj sch) (.obj sch) hnr hfuel
  have hres : ∀ kv ∈ props, resolve_schema_refs fuel kv.2 (.obj sch) = .ok kv.2 := by
    intro kv hkv
    cases hpl : pyLookup "properties" sch with
    | none =>
      rw [hpl] at hprops
      simp only [Option.getD_none, Json.obj.injEq] at hprops
      rw [← hprops] at hkv
      exact absurd hkv (by simp)
    | some pj =>
      rw [hpl] at hprops
      simp only [Option.getD_some] at hprops
      subst hprops
      have hmem := pyLookup_mem "properties" sch (.obj props) hpl
      have hnrO : noRefsO sch = true := by
        rw [noRefs, Bool.and_eq_true] at hnr
        exact hnr.2
      have hnrP : noRefs (.obj props) = true := noRefsO_mem sch _ hnrO hmem
      have hnrP2 : noRefsO props = true := by
        rw [noRefs, Bool.and_eq_true] at hnrP
        exact hnrP.2
      apply resolve_id
      · exact noRefsO_mem props kv hnrP2 hkv
      · have h1 := jsizeO_mem props kv hkv
        have h2 := jsizeO_mem sch ("properties", .obj props) hmem
        rw [jsize] at hfuel
        have h3 : jsize (Json.obj props) = 1 + jsizeO props := by rw [jsize]
        simp only at h1 h2
        omega
  obtain ⟨fmsgs, hf⟩ := fieldPass_ok fuel props (.obj sch) hres hwf d hdata
  have hreqp : requiredPass (.arr (rs.map .str)) (.obj d) =
      .ok ((rs.filter (reqViol d)).map (fun f => "Field \x27" ++ f ++ "\x27 is required")) := by
    simp [requiredPass, pyIter, Bind.bind, Except.bind, requiredGo_strs]
  have hmain : validate_against_schema fuel (.obj d) (.obj sch) =
      .ok (((rs.filter (reqViol d)).map (fun f => "Field \x27" ++ f ++ "\x27 is required")) ++ fmsgs) := by
    rw [validate_against_schema, hresolved]
    simp only [pyDictGet, hprops, hreq, hreqp, hf]
  exact ⟨_, hmain⟩

/-- C4 amended witness: a concrete benign schema (string field with
`minLength`), a string value for the declared property and a nested map
under an undeclared key — validation returns messages without throwing. -/
theorem c4_amended_witness :
    ∃ msgs, validate_against_schema 10
        (.obj [("name", .str "ab"), ("extra", .obj [("z", .str "1")])])
        (.obj [("properties", .obj [("name", .obj [("type", .str "string"), ("minLength", .num 3)])]),
               ("required", .arr [.str "name"])]) = .ok msgs :=
  c4_amended_no_throw 10 [("name", .str "ab"), ("extra", .obj [("z", .str "1")])]
    [("properties", .obj [("name", .obj [("type", .str "string"), ("minLength", .num 3)])]),
     ("required", .arr [.str "name"])]
    [("name", .obj [("type", .str "string"), ("minLength", .num 3)])]
    ["name"]
    rfl (by decide)
    (by
      intro kv hkv h
      rcases List.mem_cons.mp hkv with h1 | h2
      · subst h1
        exact ⟨"ab", rfl⟩
      · rw [List.mem_singleton] at h2
        subst h2
        exact absurd h (by decide))
    rfl
    (by
      intro kv hkv
      rw [List.mem_singleton] at hkv
      subst hkv
      exact rfl)
    rfl
